import Mathlib

/-!
Verification of the yogurt-variety survey application (`src/app.py`).

The pure core of the script is embedded shallowly:

* `classify_variety` mirrors the classifier at `app.py:20-23`.
* `safe_insert` mirrors the retrying durable writer at `app.py:48-65`;
  the database insert is abstracted by a failure schedule `fails : Nat → Bool`
  (`fails a = true` means the attempt with loop index `a` raises), and the
  store is a list of `Row` records, an attempt that succeeds appending
  exactly one row.
* `fetch_counts` mirrors the `GROUP BY` read at `app.py:67-76`.
* `plot_stacked` mirrors the aggregation part of `app.py:78-100`:
  the empty-data early return, the cell-filling loop, the pivot, the
  zero-replaced totals and the within-condition percentages (exact
  rationals stand in for the float arithmetic, as the claims are about
  exact arithmetic before display rounding).
* `submit_handler` mirrors the two form submit handlers
  (`app.py:179-193` and `app.py:210-224`), which are identical up to the
  condition label: placeholder validation, durable write, and the `done`
  flag transition.
* `pidSpace` is the space of integers drawn at `app.py:131` for the
  participant identifier.
-/

def FLAVORS : List String :=
  ["Vanilla", "Strawberry", "Banana", "Blueberry", "Apricot", "Coffee"]

def PLACEHOLDER : String := "— select —"

def OPTIONS : List String := PLACEHOLDER :: FLAVORS

/-- Embeds `classify_variety` (`app.py:20-23`): `u = len(set(choices))`,
then `"Low"` if `u == 1`, `"Medium"` if `u == 2`, otherwise `"High"`.
`List.dedup` captures the distinct elements of the list. -/
def classify_variety (choices : List String) : String :=
  let u := choices.dedup.length
  if u = 1 then "Low" else if u = 2 then "Medium" else "High"

/-- A persisted response row (the columns of `yogurt_variety`,
`app.py:37-44`; `id` is server-assigned and `created_at` is modelled as
an abstract timestamp). -/
structure Row where
  created_at : Nat
  participant_id : String
  condition : String
  choices : List String
  variety : String
deriving DecidableEq, Repr

/-- The retry loop body of `safe_insert` (`app.py:51-65`), recursing on
the loop index `a`.  A failing attempt (`fails a = true`) re-raises when
`a = retries - 1` and otherwise sleeps and continues; a succeeding
attempt inserts exactly one row and returns.  The result is the store
paired with `true` when the exception propagated. -/
def safe_insertGo (fails : Nat → Bool) (row : Row) (retries : Nat)
    (a : Nat) (store : List Row) : List Row × Bool :=
  if a < retries then
    if fails a then
      if a = retries - 1 then (store, true)
      else safe_insertGo fails row retries (a + 1) store
    else (store ++ [row], false)
  else (store, false)
termination_by retries - a

/-- Embeds `safe_insert` (`app.py:48-65`): the Python default is
`retries = 6` and the loop starts at `a = 0`. -/
def safe_insert (fails : Nat → Bool) (row : Row) (retries : Nat)
    (store : List Row) : List Row × Bool :=
  safe_insertGo fails row retries 0 store

/-- Display ordering of variety categories (`app.py:79`). -/
def order_var : List String := ["Low", "Medium", "High"]

/-- Display ordering of conditions (`app.py:80`). -/
def order_cond : List String := ["sequential", "simultaneous"]

/-- The grouping key of the `GROUP BY condition, variety` read. -/
def rkey (r : Row) : String × String := (r.condition, r.variety)

/-- Embeds `fetch_counts` (`app.py:67-76`): one output row per distinct
(condition, variety) pair present in the store, carrying the number of
stored rows with that pair. -/
def fetch_counts (store : List Row) : List (String × String × Nat) :=
  (store.map rkey).dedup.map
    (fun p => (p.1, p.2, (store.filter (fun r => rkey r = p)).length))

/-- Value of the pivot table (`app.py:92-97`) at cell `(c, v)`: the sum
of the counts of the dataframe rows with that condition and variety
(`aggfunc="sum"`; a pair absent from the dataframe becomes `0`, matching
`reindex`/`fillna(0)`). -/
def pivotCell (df : List (String × String × Nat)) (c v : String) : Nat :=
  ((df.filter (fun t => t.1 = c ∧ t.2.1 = v)).map (fun t => t.2.2)).sum

/-- One iteration of the cell-filling loop body (`app.py:89-90`): if no
dataframe row has the pair `(c, v)`, append a row with count `0`. -/
def fillCell (c v : String) (df : List (String × String × Nat)) :
    List (String × String × Nat) :=
  if df.any (fun t => t.1 = c ∧ t.2.1 = v) then df else df ++ [(c, v, 0)]

/-- The nested cell-filling loop (`app.py:87-90`), iterating conditions
outer and varieties inner, mutating the dataframe as it goes. -/
def ensureCells (df : List (String × String × Nat)) :
    List (String × String × Nat) :=
  order_cond.foldl
    (fun acc c => order_var.foldl (fun acc2 v => fillCell c v acc2) acc) df

/-- Row total of the pivot for condition `c` (`app.py:99`, before the
`replace`). -/
def condTotal (df : List (String × String × Nat)) (c : String) : Nat :=
  (order_var.map (fun v => pivotCell df c v)).sum

/-- Row total after `.replace(0, 1)` (`app.py:99`). -/
def condTotalRepl (df : List (String × String × Nat)) (c : String) : Nat :=
  if condTotal df c = 0 then 1 else condTotal df c

/-- One cell of the rendered aggregate: its (condition, variety) pair,
the pivoted count, and the within-condition percentage
(`perc = pivot.div(totals, axis=0) * 100`, `app.py:100`, in exact
rational arithmetic). -/
structure Cell where
  condition : String
  variety : String
  n : Nat
  pct : ℚ
deriving DecidableEq, Repr

/-- Embeds the aggregation of `plot_stacked` (`app.py:78-100`): the
empty dataframe takes the `"No data yet."` early return (`app.py:82-84`)
and yields no cells; otherwise the cells of the 2×3 grid are produced in
display order with their counts and percentages. -/
def plot_stacked (df : List (String × String × Nat)) : Option (List Cell) :=
  if df = [] then none
  else
    let df2 := ensureCells df
    some ((order_cond.map (fun c => order_var.map (fun v =>
      { condition := c, variety := v, n := pivotCell df2 c v,
        pct := (pivotCell df2 c v : ℚ) / (condTotalRepl df2 c : ℚ) * 100
        : Cell }))).flatten)

/-- Number of stored rows with condition `c` and variety `v`. -/
def countCV (store : List Row) (c v : String) : Nat :=
  (store.filter (fun r => r.condition = c ∧ r.variety = v)).length

/-- A sample persisted row, used to instantiate witnesses. -/
def r0 : Row :=
  { created_at := 0, participant_id := "p_123456", condition := "sequential",
    choices := ["Vanilla", "Vanilla", "Banana"], variety := "Medium" }

/-- Outcome of a form submit handler run. -/
inductive SubmitResult where
  | rejected
  | ok
  | persistErr
deriving DecidableEq, Repr

/-- Embeds the submit handlers (`app.py:179-193` sequential and
`app.py:210-224` simultaneous, identical up to the `condition` label):
collect the three slot values, reject with `st.stop()` when any still
holds the placeholder (no write attempted), otherwise build the row
(timestamp `t`, session `pid` and `condition`, derived `variety`) and
call `safe_insert` with the default 6 retries; only when the writer
returns without raising is `st.session_state.done` set to `true`.
Returns the outcome, the resulting store and the resulting `done` flag. -/
def submit_handler (fails : Nat → Bool) (t : Nat) (pid condition : String)
    (w1 w2 w3 : String) (store : List Row) (done : Bool) :
    SubmitResult × List Row × Bool :=
  let choices := [w1, w2, w3]
  if PLACEHOLDER ∈ choices then (SubmitResult.rejected, store, done)
  else
    let res := safe_insert fails
      { created_at := t, participant_id := pid, condition := condition,
        choices := choices, variety := classify_variety choices } 6 store
    if res.2 then (SubmitResult.persistErr, res.1, done)
    else (SubmitResult.ok, res.1, true)

/-- The space of integers the participant identifier is drawn from:
`random.randint(100000, 999999)` (`app.py:131`), inclusive on both ends. -/
def pidSpace : Finset ℕ := Finset.Icc 100000 999999

/-- The participant identifier format `f"p_{n}"` (`app.py:131`). -/
def pid_of (n : ℕ) : String := "p_" ++ toString n

/-- Modelled from the spec: the Admin Reset operation of spec §4.6
(`reset_all() -> ()`, unconditionally deletes all Response rows) has no
implementation anywhere in `src/app.py`; it is embedded here from the
spec's contract as the store transformer that discards every row. -/
def reset_all (_store : List Row) : List Row := []

/-- Claim C1: for a sequence of exactly three labels, `classify_variety`
returns `"Low"` iff all three are equal, `"Medium"` iff the sequence has
exactly two distinct values, `"High"` iff it has three distinct values,
and the result is invariant under permutation of the sequence. -/
theorem classify_variety_spec (a b c : String) :
    (classify_variety [a, b, c] = "Low" ↔ (a = b ∧ b = c)) ∧
    (classify_variety [a, b, c] = "Medium" ↔ [a, b, c].toFinset.card = 2) ∧
    (classify_variety [a, b, c] = "High" ↔ [a, b, c].toFinset.card = 3) ∧
    (∀ l : List String, [a, b, c].Perm l →
      classify_variety l = classify_variety [a, b, c]) := by
  have hperm : ∀ l : List String, [a, b, c].Perm l →
      classify_variety l = classify_variety [a, b, c] := by
    intro l hl
    simp only [classify_variety]
    rw [hl.dedup.length_eq]
  have hcard : ∀ l : List String, l.toFinset.card = l.dedup.length := by
    intro l
    exact List.card_toFinset l
  refine ⟨?_, ?_, ?_, hperm⟩
  · constructor
    · intro h
      simp only [classify_variety] at h
      by_cases hab : a = b <;> by_cases hbc : b = c <;>
        by_cases hac : a = c <;> subst_vars <;> simp_all
    · rintro ⟨rfl, rfl⟩
      simp [classify_variety]
  · constructor
    · intro h
      simp only [classify_variety] at h
      rw [hcard]
      by_cases hab : a = b <;> by_cases hbc : b = c <;>
        by_cases hac : a = c <;> subst_vars <;> simp_all
    · intro h
      rw [hcard] at h
      simp [classify_variety, h]
  · constructor
    · intro h
      simp only [classify_variety] at h
      rw [hcard]
      by_cases hab : a = b <;> by_cases hbc : b = c <;>
        by_cases hac : a = c <;> subst_vars <;> simp_all
    · intro h
      rw [hcard] at h
      have h1 : [a, b, c].dedup.length ≠ 1 := by omega
      have h2 : [a, b, c].dedup.length ≠ 2 := by omega
      simp [classify_variety, h1, h2]

/-- Witness for C1 at concrete flavors: `["Vanilla", "Vanilla", "Banana"]`
is `Medium`, and the permutation `["Banana", "Vanilla", "Vanilla"]`
classifies identically. -/
theorem classify_variety_spec_witness :
    classify_variety ["Banana", "Vanilla", "Vanilla"] =
      classify_variety ["Vanilla", "Vanilla", "Banana"] ∧
    classify_variety ["Vanilla", "Vanilla", "Banana"] = "Medium" :=
  ⟨(classify_variety_spec "Vanilla" "Vanilla" "Banana").2.2.2
      ["Banana", "Vanilla", "Vanilla"] (by decide),
    ((classify_variety_spec "Vanilla" "Vanilla" "Banana").2.1).2 (by decide)⟩

/-- Claim C2: with the default bound of 6 attempts, a schedule that fails
on exactly the first five attempts and succeeds on the sixth persists
exactly one row and returns without raising; a schedule that fails on all
six attempts persists nothing and re-raises. -/
theorem safe_insert_retry_bound (fails : Nat → Bool) (row : Row)
    (store : List Row) :
    ((∀ a, a < 5 → fails a = true) → fails 5 = false →
      safe_insert fails row 6 store = (store ++ [row], false)) ∧
    ((∀ a, a < 6 → fails a = true) →
      safe_insert fails row 6 store = (store, true)) := by
  constructor
  · intro hf h5
    have h0 := hf 0 (by norm_num)
    have h1 := hf 1 (by norm_num)
    have h2 := hf 2 (by norm_num)
    have h3 := hf 3 (by norm_num)
    have h4 := hf 4 (by norm_num)
    simp [safe_insert, safe_insertGo, h0, h1, h2, h3, h4, h5]
  · intro hf
    have h0 := hf 0 (by norm_num)
    have h1 := hf 1 (by norm_num)
    have h2 := hf 2 (by norm_num)
    have h3 := hf 3 (by norm_num)
    have h4 := hf 4 (by norm_num)
    have h5 := hf 5 (by norm_num)
    simp [safe_insert, safe_insertGo, h0, h1, h2, h3, h4, h5]

/-- Witness for C2: concrete schedules — failing below attempt index 5
yields exactly the one appended row, failing always yields the untouched
empty store and an error. -/
theorem safe_insert_retry_bound_witness :
    safe_insert (fun a => decide (a < 5)) r0 6 [] = ([r0], false) ∧
    safe_insert (fun _ => true) r0 6 [] = ([], true) :=
  ⟨(safe_insert_retry_bound (fun a => decide (a < 5)) r0 []).1
      (fun a ha => decide_eq_true ha) (by decide),
    (safe_insert_retry_bound (fun _ => true) r0 []).2 (fun a _ => rfl)⟩

/-- Counterexample to claim C7: the classifier performs no length check;
on the empty list (length 0 ≠ 3) it returns the category `"High"` instead
of failing with `InvalidInput`. -/
theorem classify_variety_no_length_check :
    ([] : List String).length ≠ 3 ∧ classify_variety [] = "High" := by
  constructor
  · decide
  · rfl

/-- Claim C7 as amended: for inputs whose length is not 3 the classifier
does not fail; it still returns one of the three categories (based only
on the number of distinct values). -/
theorem classify_variety_total (l : List String) (h : l.length ≠ 3) :
    classify_variety l = "Low" ∨ classify_variety l = "Medium" ∨
      classify_variety l = "High" := by
  simp only [classify_variety]
  split
  · exact Or.inl rfl
  · split
    · exact Or.inr (Or.inl rfl)
    · exact Or.inr (Or.inr rfl)

/-- Witness for C7 (amended) at the empty list. -/
theorem classify_variety_total_witness :
    ([] : List String).length ≠ 3 ∧
      (classify_variety [] = "Low" ∨ classify_variety [] = "Medium" ∨
        classify_variety [] = "High") :=
  ⟨by decide, classify_variety_total [] (by decide)⟩

theorem pivotCell_cons (t : String × String × Nat)
    (df : List (String × String × Nat)) (c v : String) :
    pivotCell (t :: df) c v =
      (if t.1 = c ∧ t.2.1 = v then t.2.2 else 0) + pivotCell df c v := by
  simp only [pivotCell, List.filter_cons]
  split
  · simp_all
  · simp_all

theorem pivotCell_fillCell (c' v' c v : String)
    (df : List (String × String × Nat)) :
    pivotCell (fillCell c' v' df) c v = pivotCell df c v := by
  rw [fillCell]
  split
  · rfl
  · rw [pivotCell, pivotCell, List.filter_append, List.map_append,
      List.sum_append]
    by_cases h : c' = c ∧ v' = v
    · obtain ⟨rfl, rfl⟩ := h
      simp
    · simp [List.filter_cons, h]

theorem pivotCell_foldl_var (l : List String) (c' c v : String)
    (df : List (String × String × Nat)) :
    pivotCell (l.foldl (fun acc v' => fillCell c' v' acc) df) c v =
      pivotCell df c v := by
  induction l generalizing df with
  | nil => rfl
  | cons x xs ih => rw [List.foldl_cons, ih, pivotCell_fillCell]

theorem pivotCell_ensureCells (df : List (String × String × Nat))
    (c v : String) :
    pivotCell (ensureCells df) c v = pivotCell df c v := by
  rw [ensureCells, order_cond, List.foldl_cons, List.foldl_cons,
    List.foldl_nil, pivotCell_foldl_var, pivotCell_foldl_var]

theorem pivotCell_map_cnt (store : List Row) (l : List (String × String))
    (c v : String) (hl : l.Nodup) :
    pivotCell (l.map
        (fun p => (p.1, p.2, (store.filter (fun r => rkey r = p)).length)))
        c v =
      if (c, v) ∈ l then (store.filter (fun r => rkey r = (c, v))).length
      else 0 := by
  induction l with
  | nil => simp [pivotCell]
  | cons p t ih =>
    rw [List.map_cons, pivotCell_cons, ih (List.Nodup.of_cons hl)]
    by_cases h : p = (c, v)
    · subst h
      have hnt : (c, v) ∉ t := (List.nodup_cons.mp hl).1
      rw [if_pos ⟨rfl, rfl⟩, if_neg hnt, if_pos (List.mem_cons_self _ _)]
      simp
    · have h1 : ¬(p.1 = c ∧ p.2 = v) := by
        intro hcv
        exact h (Prod.ext hcv.1 hcv.2)
      have hmem : (c, v) ∈ p :: t ↔ (c, v) ∈ t := by
        constructor
        · intro hm
          rcases List.mem_cons.mp hm with h' | h'
          · exact absurd h'.symm h
          · exact h'
        · exact fun hm => List.mem_cons_of_mem _ hm
      rw [if_neg h1, Nat.zero_add, if_congr hmem rfl rfl]

theorem pivotCell_fetch_counts (store : List Row) (c v : String) :
    pivotCell (fetch_counts store) c v = countCV store c v := by
  rw [fetch_counts, pivotCell_map_cnt store _ c v (List.nodup_dedup _)]
  have hfc : (store.filter (fun r => rkey r = (c, v))).length =
      countCV store c v := by
    rw [countCV]
    congr 1
    apply List.filter_congr
    intro r _
    simp [rkey, Prod.ext_iff]
  by_cases h : (c, v) ∈ store.map rkey
  · rw [if_pos (List.mem_dedup.mpr h), hfc]
  · rw [if_neg (fun hd => h (List.mem_dedup.mp hd)), countCV]
    symm
    rw [List.length_eq_zero, List.filter_eq_nil_iff]
    intro r hr
    simp only [decide_eq_true_eq, not_and]
    intro hc hv
    exact h (List.mem_map.mpr ⟨r, hr, by simp [rkey, hc, hv]⟩)

theorem fetch_counts_ne_nil (store : List Row) (h : store ≠ []) :
    fetch_counts store ≠ [] := by
  simp [fetch_counts, List.map_eq_nil_iff, List.dedup_eq_nil, h]

theorem plot_stacked_of_ne_nil (df : List (String × String × Nat))
    (h : df ≠ []) :
    plot_stacked df =
      some ((order_cond.map (fun c => order_var.map (fun v =>
        { condition := c, variety := v, n := pivotCell (ensureCells df) c v,
          pct := (pivotCell (ensureCells df) c v : ℚ) /
            (condTotalRepl (ensureCells df) c : ℚ) * 100 : Cell }))).flatten)
      := by
  rw [plot_stacked, if_neg h]

/-- Counterexample to claim C3: on the empty store the dataframe is empty
and `plot_stacked` takes the `"No data yet."` early return, producing no
cells at all rather than 6 zero-count cells. -/
theorem plot_stacked_empty_counterexample :
    plot_stacked (fetch_counts ([] : List Row)) = none := rfl

/-- Claim C3 as amended: for every NON-EMPTY store the aggregation
produces exactly 6 cells in display order — the 2 conditions crossed with
the 3 variety categories — and each cell's count is the number of stored
rows with that (condition, variety) pair, in particular 0 for any
combination absent from the data; the empty store instead takes the
no-data early return and produces no cells. -/
theorem plot_stacked_six_cells (store : List Row) (h : store ≠ []) :
    ∃ cells : List Cell,
      plot_stacked (fetch_counts store) = some cells ∧
      cells.length = 6 ∧
      cells.map (fun cell => (cell.condition, cell.variety)) =
        [("sequential", "Low"), ("sequential", "Medium"),
         ("sequential", "High"), ("simultaneous", "Low"),
         ("simultaneous", "Medium"), ("simultaneous", "High")] ∧
      ∀ cell ∈ cells, cell.n = countCV store cell.condition cell.variety := by
  refine ⟨_, plot_stacked_of_ne_nil _ (fetch_counts_ne_nil store h), ?_, ?_, ?_⟩
  · simp [order_cond, order_var]
  · simp [order_cond, order_var]
  · intro cell hcell
    simp only [order_cond, order_var, List.map_cons, List.map_nil,
      List.flatten, List.append_nil, List.mem_cons, List.mem_singleton,
      List.not_mem_nil, List.cons_append, List.nil_append] at hcell
    rcases hcell with rfl | rfl | rfl | rfl | rfl | rfl | hfalse
    all_goals try
      simp only [pivotCell_ensureCells, pivotCell_fetch_counts]
    all_goals simp_all

/-- Witness for C3 (amended) at a one-row store. -/
theorem plot_stacked_six_cells_witness :
    ([r0] : List Row) ≠ [] ∧
      (∃ cells : List Cell,
        plot_stacked (fetch_counts [r0]) = some cells ∧
        cells.length = 6 ∧
        cells.map (fun cell => (cell.condition, cell.variety)) =
          [("sequential", "Low"), ("sequential", "Medium"),
           ("sequential", "High"), ("simultaneous", "Low"),
           ("simultaneous", "Medium"), ("simultaneous", "High")] ∧
        ∀ cell ∈ cells,
          cell.n = countCV [r0] cell.condition cell.variety) :=
  ⟨by simp, plot_stacked_six_cells [r0] (by simp)⟩

/-- Counterexample to claim C4: the empty store is a store in which a
condition (here `"sequential"`) has zero responses, yet the aggregation
takes the no-data early return and reports no 0% cells for it at all. -/
theorem plot_stacked_zero_cond_empty_counterexample :
    (∀ r ∈ ([] : List Row), r.condition ≠ "sequential") ∧
      plot_stacked (fetch_counts ([] : List Row)) = none :=
  ⟨fun r hr => absurd hr (List.not_mem_nil r), rfl⟩

theorem countCV_eq_zero_of_no_cond (store : List Row) (c : String)
    (h0 : ∀ r ∈ store, r.condition ≠ c) (v : String) :
    countCV store c v = 0 := by
  rw [countCV, List.length_eq_zero, List.filter_eq_nil_iff]
  intro r hr
  simp only [decide_eq_true_eq, not_and]
  intro hc
  exact absurd hc (h0 r hr)

/-- Claim C4 as amended: for every NON-EMPTY store in which one of the
two conditions has zero responses, the aggregation still succeeds (no
division-by-zero fault) and reports a 0% percentage in all three variety
cells of that condition; on the fully empty store the aggregation
instead takes the no-data early return and reports no cells. -/
theorem plot_stacked_zero_condition (store : List Row) (c : String)
    (hne : store ≠ []) (hc : c ∈ order_cond)
    (h0 : ∀ r ∈ store, r.condition ≠ c) :
    ∃ cells : List Cell,
      plot_stacked (fetch_counts store) = some cells ∧
      (∀ cell ∈ cells, cell.condition = c → cell.pct = 0) := by
  refine ⟨_, plot_stacked_of_ne_nil _ (fetch_counts_ne_nil store hne), ?_⟩
  have hz : ∀ v, pivotCell (ensureCells (fetch_counts store)) c v = 0 := by
    intro v
    rw [pivotCell_ensureCells, pivotCell_fetch_counts]
    exact countCV_eq_zero_of_no_cond store c h0 v
  intro cell hcell hcond
  simp only [order_cond, order_var, List.map_cons, List.map_nil,
    List.flatten, List.cons_append, List.nil_append, List.append_nil,
    List.mem_cons, List.not_mem_nil, or_false] at hcell
  rcases hcell with rfl | rfl | rfl | rfl | rfl | rfl <;>
    simp only at hcond <;> subst hcond <;> simp [hz]

/-- Witness for C4 (amended): a store holding one sequential response has
zero simultaneous responses, and all three simultaneous cells carry 0%. -/
theorem plot_stacked_zero_condition_witness :
    (([r0] : List Row) ≠ [] ∧ "simultaneous" ∈ order_cond ∧
      ∀ r ∈ ([r0] : List Row), r.condition ≠ "simultaneous") ∧
    ∃ cells : List Cell,
      plot_stacked (fetch_counts [r0]) = some cells ∧
      (∀ cell ∈ cells, cell.condition = "simultaneous" → cell.pct = 0) :=
  ⟨⟨by simp, by simp [order_cond], by decide⟩,
    plot_stacked_zero_condition [r0] "simultaneous" (by simp)
      (by simp [order_cond]) (by decide)⟩

theorem countCV_split (store : List Row) (c : String)
    (hwf : ∀ r ∈ store, r.variety ∈ order_var) :
    countCV store c "Low" + countCV store c "Medium" +
        countCV store c "High" =
      (store.filter (fun r => r.condition = c)).length := by
  induction store with
  | nil => rfl
  | cons r t ih =>
    have hwt : ∀ x ∈ t, x.variety ∈ order_var := fun x hx =>
      hwf x (List.mem_cons_of_mem _ hx)
    have ih2 := ih hwt
    have hv := hwf r (List.mem_cons_self _ _)
    simp only [order_var, List.mem_cons, List.not_mem_nil, or_false]
      at hv
    simp only [countCV, List.filter_cons] at ih2 ⊢
    by_cases hc : r.condition = c
    · rcases hv with hv | hv | hv <;> simp [hc, hv] at ih2 ⊢ <;> omega
    · simp [hc] at ih2 ⊢
      omega

/-- Claim C10: for any store of well-formed responses and any condition
with at least one response, the three within-condition percentages
produced by the aggregation sum to exactly 100 in exact arithmetic. -/
theorem perc_sum_100 (store : List Row) (c : String)
    (hc : c ∈ order_cond)
    (hwf : ∀ r ∈ store, r.variety ∈ order_var)
    (hr : ∃ r ∈ store, r.condition = c) :
    ∃ cells : List Cell,
      plot_stacked (fetch_counts store) = some cells ∧
      ((cells.filter (fun cell => cell.condition = c)).map
        (fun cell => cell.pct)).sum = 100 := by
  have hne : store ≠ [] := by
    rintro rfl
    rcases hr with ⟨r, hrm, _⟩
    exact List.not_mem_nil r hrm
  refine ⟨_, plot_stacked_of_ne_nil _ (fetch_counts_ne_nil store hne), ?_⟩
  have hp : ∀ v, pivotCell (ensureCells (fetch_counts store)) c v =
      countCV store c v := fun v => by
    rw [pivotCell_ensureCells, pivotCell_fetch_counts]
  have hN : 0 < (store.filter (fun r => r.condition = c)).length := by
    rcases hr with ⟨r, hrm, hrc⟩
    exact List.length_pos_of_mem (List.mem_filter.mpr ⟨hrm, by simp [hrc]⟩)
  have ht : condTotal (ensureCells (fetch_counts store)) c =
      (store.filter (fun r => r.condition = c)).length := by
    rw [condTotal]
    simp only [order_var, List.map_cons, List.map_nil, List.sum_cons,
      List.sum_nil, hp]
    rw [← countCV_split store c hwf]
    omega
  have htr : condTotalRepl (ensureCells (fetch_counts store)) c =
      (store.filter (fun r => r.condition = c)).length := by
    rw [condTotalRepl, ht, if_neg (by omega)]
  have key : (countCV store c "Low" : ℚ) + countCV store c "Medium" +
      countCV store c "High" =
      ((store.filter (fun r => r.condition = c)).length : ℚ) := by
    exact_mod_cast congrArg (Nat.cast : Nat → ℚ) (countCV_split store c hwf)
  have hNq : ((store.filter (fun r => r.condition = c)).length : ℚ) ≠ 0 := by
    exact_mod_cast Nat.pos_iff_ne_zero.mp hN
  have hcases : c = "sequential" ∨ c = "simultaneous" := by
    simpa [order_cond] using hc
  rcases hcases with rfl | rfl <;>
  · simp only [order_cond, order_var, List.map_cons, List.map_nil,
      List.flatten, List.cons_append, List.nil_append, List.append_nil]
    simp only [hp, htr]
    simp
    field_simp
    linarith

/-- Witness for C10 at a one-row store: the sequential percentages sum
to 100. -/
theorem perc_sum_100_witness :
    ("sequential" ∈ order_cond ∧
      (∀ r ∈ ([r0] : List Row), r.variety ∈ order_var) ∧
      (∃ r ∈ ([r0] : List Row), r.condition = "sequential")) ∧
    ∃ cells : List Cell,
      plot_stacked (fetch_counts [r0]) = some cells ∧
      ((cells.filter (fun cell => cell.condition = "sequential")).map
        (fun cell => cell.pct)).sum = 100 :=
  ⟨⟨by simp [order_cond], by decide, by decide⟩,
    perc_sum_100 [r0] "sequential" (by simp [order_cond]) (by decide)
      (by decide)⟩

/-- Claim C5: the handler rejects a submission iff one of the three slots
still holds the placeholder sentinel, and a rejected submission leaves
the store untouched (the durable writer is never invoked); three
non-placeholder labels are never rejected. -/
theorem submit_handler_validation (fails : Nat → Bool) (t : Nat)
    (pid condition w1 w2 w3 : String) (store : List Row) (done : Bool) :
    ((submit_handler fails t pid condition w1 w2 w3 store done).1 =
        SubmitResult.rejected ↔
      (w1 = PLACEHOLDER ∨ w2 = PLACEHOLDER ∨ w3 = PLACEHOLDER)) ∧
    ((w1 = PLACEHOLDER ∨ w2 = PLACEHOLDER ∨ w3 = PLACEHOLDER) →
      (submit_handler fails t pid condition w1 w2 w3 store done).2.1 =
        store) := by
  by_cases h : PLACEHOLDER ∈ [w1, w2, w3]
  · have h2 : w1 = PLACEHOLDER ∨ w2 = PLACEHOLDER ∨ w3 = PLACEHOLDER := by
      simpa [eq_comm] using h
    simp [submit_handler, h, h2]
  · have h2 : ¬(w1 = PLACEHOLDER ∨ w2 = PLACEHOLDER ∨ w3 = PLACEHOLDER) := by
      simpa [eq_comm] using h
    constructor
    · rw [submit_handler]
      simp only [h, if_false]
      constructor
      · intro hres
        split at hres <;> simp_all
      · intro hp
        exact absurd hp h2
    · intro hp
      exact absurd hp h2

/-- Witness for C5: a placeholder in slot 2 is rejected and persists
nothing. -/
theorem submit_handler_validation_witness :
    ((submit_handler (fun _ => false) 0 "p_123456" "sequential"
        "Vanilla" PLACEHOLDER "Banana" [] false).1 =
        SubmitResult.rejected ↔
      ("Vanilla" = PLACEHOLDER ∨ PLACEHOLDER = PLACEHOLDER ∨
        "Banana" = PLACEHOLDER)) ∧
    (("Vanilla" = PLACEHOLDER ∨ PLACEHOLDER = PLACEHOLDER ∨
        "Banana" = PLACEHOLDER) →
      (submit_handler (fun _ => false) 0 "p_123456" "sequential"
        "Vanilla" PLACEHOLDER "Banana" [] false).2.1 = []) :=
  submit_handler_validation (fun _ => false) 0 "p_123456" "sequential"
    "Vanilla" PLACEHOLDER "Banana" [] false

theorem safe_insertGo_shape (fails : Nat → Bool) (row : Row) :
    ∀ retries a store, a < retries →
      safe_insertGo fails row retries a store = (store, true) ∨
      safe_insertGo fails row retries a store = (store ++ [row], false) := by
  intro retries a store hlt
  generalize hn : retries - a = n
  induction n generalizing a with
  | zero => omega
  | succ k ih =>
    rw [safe_insertGo]
    cases hf : fails a
    · right
      simp [hlt, hf]
    · by_cases hend : a = retries - 1
      · left
        simp [hlt, hf, hend]
        omega
      · have hlt2 : a + 1 < retries := by omega
        have hk : retries - (a + 1) = k := by omega
        simpa [hlt, hf, hend] using ih (a + 1) hlt2 hk

theorem safe_insert_succeeds_shape (fails : Nat → Bool) (row : Row)
    (store st2 : List Row)
    (h : safe_insert fails row 6 store = (st2, false)) :
    st2 = store ++ [row] := by
  rcases safe_insertGo_shape fails row 6 0 store (by omega) with h1 | h1 <;>
    rw [safe_insert] at h <;> rw [h1] at h
  · exact absurd (congrArg Prod.snd h).symm (by simp)
  · exact (congrArg Prod.fst h).symm

/-- Claim C6: starting from a session that has not submitted
(`done = false`), the `done` flag ends up `true` only when the handler
reports success, and success means exactly the one new row was appended
to the store; when the writer raises (or the submission is rejected) the
flag stays `false`, so the user may retry. -/
theorem submit_done_only_after_persist (fails : Nat → Bool) (t : Nat)
    (pid condition w1 w2 w3 : String) (store : List Row)
    (done : Bool) (hd : done = false) :
    ((submit_handler fails t pid condition w1 w2 w3 store done).2.2 = true ↔
      (submit_handler fails t pid condition w1 w2 w3 store done).1 =
        SubmitResult.ok) ∧
    ((submit_handler fails t pid condition w1 w2 w3 store done).1 =
        SubmitResult.ok →
      (submit_handler fails t pid condition w1 w2 w3 store done).2.1 =
        store ++
          [{ created_at := t, participant_id := pid, condition := condition,
             choices := [w1, w2, w3],
             variety := classify_variety [w1, w2, w3] }]) := by
  subst hd
  rw [submit_handler]
  split
  · simp
  · rcases hres : safe_insert fails
      { created_at := t, participant_id := pid, condition := condition,
        choices := [w1, w2, w3],
        variety := classify_variety [w1, w2, w3] } 6 store with ⟨st2, err⟩
    cases err
    · have hsh := safe_insert_succeeds_shape fails _ store st2 hres
      constructor
      · simp
      · intro _
        simpa using hsh
    · simp

/-- Witness for C6: with an always-succeeding writer and no placeholder,
the flag flips to `true` exactly because the outcome is success, and the
single row is appended. -/
theorem submit_done_only_after_persist_witness :
    ((submit_handler (fun _ => false) 0 "p_123456" "sequential"
        "Vanilla" "Vanilla" "Banana" [] false).2.2 = true ↔
      (submit_handler (fun _ => false) 0 "p_123456" "sequential"
        "Vanilla" "Vanilla" "Banana" [] false).1 = SubmitResult.ok) ∧
    ((submit_handler (fun _ => false) 0 "p_123456" "sequential"
        "Vanilla" "Vanilla" "Banana" [] false).1 = SubmitResult.ok →
      (submit_handler (fun _ => false) 0 "p_123456" "sequential"
        "Vanilla" "Vanilla" "Banana" [] false).2.1 =
        [] ++
          [{ created_at := 0, participant_id := "p_123456",
             condition := "sequential",
             choices := ["Vanilla", "Vanilla", "Banana"],
             variety := classify_variety ["Vanilla", "Vanilla", "Banana"] }]) :=
  submit_done_only_after_persist (fun _ => false) 0 "p_123456" "sequential"
    "Vanilla" "Vanilla" "Banana" [] false rfl

/-- Counterexample to claim C9: the draw space of the participant
identifier has 900000 elements, which is strictly below 10^6, so the
identifier is NOT drawn from a space of at least 10^6 distinct values. -/
theorem pidSpace_lt_million : pidSpace.card < 10 ^ 6 := by
  simp [pidSpace, Nat.card_Icc]

/-- Claim C9 as amended: the participant identifier is drawn from a
space of exactly 900000 distinct values (the integers 100000 through
999999 inclusive). -/
theorem pidSpace_card : pidSpace.card = 900000 := by
  simp [pidSpace, Nat.card_Icc]

/-- Counterexample to claim C8: after `reset_all` the store is empty, so
the aggregation of `src/app.py` (`fetch_counts` + `plot_stacked`) takes
the `"No data yet."` early return and reports NO cells, not 6 zero-count
cells. -/
theorem reset_all_aggregate_counterexample :
    plot_stacked (fetch_counts (reset_all [r0])) = none := rfl

/-- Claim C8 as amended: `reset_all` unconditionally deletes all rows,
and for every store state the subsequent aggregation takes the
empty-data early return, reporting no cells (in particular no non-zero
count for any of the 6 combinations). -/
theorem reset_all_aggregate (store : List Row) :
    reset_all store = [] ∧
      plot_stacked (fetch_counts (reset_all store)) = none :=
  ⟨rfl, rfl⟩
